import Mathlib

/-!
Verification of the DCF valuation core (`src/dcf_model.py`, `src/valuation.py`)
of the Financial-analysis repository, as a shallow embedding over the reals.

Python floats are modelled by `ℝ`; Python's `round(x, k)` is modelled by
rounding `x * 10^k` to the nearest integer (`roundTo`).  Fallible functions
returning `None` are modelled with `Option`.
-/

namespace DCF

/-! ### Macro assumptions (module-level constants of `dcf_model.py`) -/

/-- 10-year US Treasury yield (~4.5 %). -/
def RISK_FREE_RATE : ℝ := 0.045

/-- Historical US equity risk premium. -/
def EQUITY_RISK_PREMIUM : ℝ := 0.055

/-- Terminal perpetuity growth rate (~GDP). -/
def LONG_TERM_GROWTH_RATE : ℝ := 0.025

/-- FCF exit multiple for terminal value. -/
def FCF_EXIT_MULTIPLE : ℝ := 20.0

/-- Default projection horizon. -/
def PROJECTION_YEARS : ℕ := 7

/-- Growth cap: +30 % upper bound. -/
def MAX_INITIAL_GROWTH : ℝ := 0.30

/-- Growth cap: −20 % lower bound. -/
def MIN_INITIAL_GROWTH : ℝ := -0.20

/-- `_clamp(value, low, high)` from `dcf_model.py`: `max(low, min(high, value))`. -/
def clamp (value low high : ℝ) : ℝ := max low (min high value)

/-! ### Data model -/

/-- The per-company input record produced by the data fetcher
(`CompanyFinancials` in the spec). -/
structure CompanyData where
  ticker : String
  name : String
  sector : String
  current_price : ℝ
  shares_outstanding : ℝ
  historical_fcf : List ℝ
  beta : ℝ
  market_cap : ℝ
  total_debt : ℝ
  interest_expense : ℝ
  tax_rate : ℝ

/-- The result dictionary of `calculate_intrinsic_value`. -/
structure ValuationResult where
  ticker : String
  name : String
  sector : String
  current_price : ℝ
  intrinsic_value : ℝ
  wacc : ℝ
  fcf_growth_rate : ℝ
  base_fcf : ℝ
  shares_outstanding : ℝ

/-- The formatted results row of `build_valuation_row` in `valuation.py`. -/
structure ValuationRow where
  ticker : String
  company : String
  sector : String
  current_price : ℝ
  intrinsic_value : ℝ
  pct_upside : ℝ
  signal : String
  wacc_pct : ℝ
  growth_pct : ℝ

/-- Python's `round(x, k)` (to `k` decimal places) modelled over `ℝ`:
round `x * 10^k` to the nearest integer, then scale back. -/
noncomputable def roundTo (k : ℕ) (x : ℝ) : ℝ := (round (x * 10 ^ k) : ℤ) / 10 ^ k

/-! ### `calculate_historical_growth_rate` -/

/-- The year-over-year loop of `calculate_historical_growth_rate`: over the
adjacent pairs `(prev, curr)`, keep `curr/prev - 1` whenever both are
strictly positive. -/
noncomputable def yoyRates : List (ℝ × ℝ) → List ℝ
  | [] => []
  | (prev, curr) :: rest =>
      if 0 < prev ∧ 0 < curr then (curr / prev - 1) :: yoyRates rest
      else yoyRates rest

/-- `calculate_historical_growth_rate` from `dcf_model.py`: default 0.05 below
two data points; otherwise restrict to the last five values (`fcf[-5:]`),
return the clamped CAGR when the window's first and last values are positive,
else the clamped average of the positive year-over-year rates, else 0.03. -/
noncomputable def calculate_historical_growth_rate (historical_fcf : List ℝ) : ℝ :=
  if historical_fcf.length < 2 then 0.05
  else
    let fcf := historical_fcf.drop (historical_fcf.length - 5)
    let first := fcf.headD 0
    let last := fcf.getLastD 0
    let n := fcf.length - 1
    if 0 < first ∧ 0 < last ∧ 0 < n then
      clamp ((last / first) ^ ((1:ℝ) / (n:ℝ)) - 1) MIN_INITIAL_GROWTH MAX_INITIAL_GROWTH
    else
      let yoy_rates := yoyRates (fcf.dropLast.zip fcf.tail)
      if yoy_rates ≠ [] then
        clamp (yoy_rates.sum / (yoy_rates.length : ℝ)) MIN_INITIAL_GROWTH MAX_INITIAL_GROWTH
      else 0.03

/-- Modelled from the spec's words for claim C2 only: the CAGR formula taken
over the WHOLE series (first and last elements of `historical_fcf`, `n` the
series length minus 1), clamped — the reading asserted by the claim, to be
compared against `calculate_historical_growth_rate`. -/
noncomputable def specGrowthWholeSeries (historical_fcf : List ℝ) : ℝ :=
  clamp ((historical_fcf.getLastD 0 / historical_fcf.headD 0) ^
      ((1:ℝ) / ((historical_fcf.length - 1 : ℕ) : ℝ)) - 1)
    MIN_INITIAL_GROWTH MAX_INITIAL_GROWTH

/-! ### `calculate_wacc` -/

/-- `calculate_wacc` from `dcf_model.py`: CAPM cost of equity, cost of debt
(either `interest_expense/total_debt` clamped to [0.01, 0.20] or the
risk-free rate plus 150 bps), weighted by the capital structure and clamped
to [0.04, 0.25]; if total capital is non-positive, the raw cost of equity is
returned.  The two macro parameters are passed explicitly (the Python
defaults are `RISK_FREE_RATE` and `EQUITY_RISK_PREMIUM`). -/
noncomputable def calculate_wacc (beta market_cap total_debt interest_expense tax_rate
    risk_free_rate equity_risk_premium : ℝ) : ℝ :=
  let cost_of_equity := risk_free_rate + beta * equity_risk_premium
  let cost_of_debt :=
    if 0 < total_debt ∧ 0 < interest_expense then
      clamp (interest_expense / total_debt) 0.01 0.20
    else
      risk_free_rate + 0.015
  let after_tax_cost_of_debt := cost_of_debt * (1 - tax_rate)
  let total_capital := market_cap + total_debt
  if total_capital ≤ 0 then cost_of_equity
  else
    let equity_weight := market_cap / total_capital
    let debt_weight := total_debt / total_capital
    let wacc := equity_weight * cost_of_equity + debt_weight * after_tax_cost_of_debt
    clamp wacc 0.04 0.25

/-! ### `project_free_cash_flows` -/

/-- The interpolated growth rate for projection year `t` (1-based):
`initial + fade * (long_term - initial)` with linear fade factor
`(t-1) / max(years-1, 1)`, as computed inside the loop of
`project_free_cash_flows`. -/
noncomputable def fadeGrowth (initial_growth_rate long_term_growth_rate : ℝ)
    (years t : ℕ) : ℝ :=
  initial_growth_rate +
    (((t : ℝ) - 1) / ((max (years - 1) 1 : ℕ) : ℝ)) *
      (long_term_growth_rate - initial_growth_rate)

/-- The loop of `project_free_cash_flows`: starting from `current_fcf` at
loop counter `t`, produce the next `k` compounded values. -/
noncomputable def projectAux (initial_growth_rate long_term_growth_rate : ℝ)
    (years : ℕ) : ℝ → ℕ → ℕ → List ℝ
  | _, _, 0 => []
  | current_fcf, t, Nat.succ k =>
      let growth := fadeGrowth initial_growth_rate long_term_growth_rate years t
      let next_fcf := current_fcf * (1 + growth)
      next_fcf ::
        projectAux initial_growth_rate long_term_growth_rate years next_fcf (t + 1) k

/-- `project_free_cash_flows` from `dcf_model.py`: compound `base_fcf`
for `years` steps, the growth rate fading linearly from
`initial_growth_rate` toward `long_term_growth_rate`. -/
noncomputable def project_free_cash_flows (base_fcf initial_growth_rate : ℝ)
    (years : ℕ) (long_term_growth_rate : ℝ) : List ℝ :=
  projectAux initial_growth_rate long_term_growth_rate years base_fcf 1 years

/-- The compounding sequence described by the spec for C6: value 0 is
`base_fcf`, and value `t` is value `t-1` times `1 + g_t`, where `g_t` is the
linearly interpolated growth rate `fadeGrowth` for year `t`. -/
noncomputable def compSeq (base_fcf initial_growth_rate long_term_growth_rate : ℝ)
    (years : ℕ) : ℕ → ℝ
  | 0 => base_fcf
  | Nat.succ t =>
      compSeq base_fcf initial_growth_rate long_term_growth_rate years t *
        (1 + fadeGrowth initial_growth_rate long_term_growth_rate years (t + 1))

/-! ### `calculate_terminal_value` -/

/-- `calculate_terminal_value` from `dcf_model.py`: average of the Gordon
growth (perpetuity) terminal value, with the spread floored at `0.001`,
and the exit-multiple terminal value. -/
noncomputable def calculate_terminal_value (terminal_fcf wacc long_term_growth_rate exit_multiple : ℝ) : ℝ :=
  let spread0 := wacc - long_term_growth_rate
  let spread := if spread0 ≤ 0.001 then 0.001 else spread0
  let tv_perpetuity := terminal_fcf * (1 + long_term_growth_rate) / spread
  let tv_exit_multiple := terminal_fcf * exit_multiple
  (tv_perpetuity + tv_exit_multiple) / 2

/-! ### `discount_cash_flows` -/

/-- The discounting loop of `discount_cash_flows`: sum `cf / (1+wacc)^t` over
the cash flows, `t` starting at the given index. -/
noncomputable def pvAux (wacc : ℝ) : ℕ → List ℝ → ℝ
  | _, [] => 0
  | t, cf :: rest => cf / (1 + wacc) ^ t + pvAux wacc (t + 1) rest

/-- `discount_cash_flows` from `dcf_model.py`: present value of the projected
cash flows (years 1..N) plus the terminal value discounted at year N. -/
noncomputable def discount_cash_flows (cash_flows : List ℝ) (terminal_value wacc : ℝ) : ℝ :=
  pvAux wacc 1 cash_flows + terminal_value / (1 + wacc) ^ cash_flows.length

/-! ### Signal classification (`valuation.py`) -/

/-- Buy threshold: intrinsic value above price by at least 15 %. -/
def BUY_THRESHOLD : ℝ := 0.15

/-- Sell threshold: intrinsic value below price by at least 15 %. -/
def SELL_THRESHOLD : ℝ := -0.15

/-- `generate_signal` from `valuation.py`. -/
noncomputable def generate_signal (upside_pct : ℝ) : String :=
  if BUY_THRESHOLD ≤ upside_pct then "Buy"
  else if upside_pct ≤ SELL_THRESHOLD then "Sell"
  else "Hold"

/-! ### `calculate_intrinsic_value` -/

/-- `calculate_intrinsic_value` from `dcf_model.py`: the full per-company DCF
pipeline.  Returns `none` when the FCF history is empty, when the most recent
FCF is zero, or when shares outstanding are non-positive; otherwise estimates
growth (with the distressed-recovery override for negative base FCF), WACC,
projects and discounts cash flows, subtracts net debt and divides by shares. -/
noncomputable def calculate_intrinsic_value (company_data : CompanyData) : Option ValuationResult :=
  if company_data.historical_fcf = [] then none
  else
    let base_fcf := company_data.historical_fcf.getLastD 0
    if base_fcf = 0 then none
    else
      let growth_rate0 := calculate_historical_growth_rate company_data.historical_fcf
      let growth_rate := if base_fcf < 0 then max growth_rate0 0.05 else growth_rate0
      let wacc := calculate_wacc company_data.beta company_data.market_cap
        company_data.total_debt company_data.interest_expense company_data.tax_rate
        RISK_FREE_RATE EQUITY_RISK_PREMIUM
      let projected_fcf := project_free_cash_flows base_fcf growth_rate
        PROJECTION_YEARS LONG_TERM_GROWTH_RATE
      let terminal_value := calculate_terminal_value (projected_fcf.getLastD 0) wacc
        LONG_TERM_GROWTH_RATE FCF_EXIT_MULTIPLE
      let equity_value := discount_cash_flows projected_fcf terminal_value wacc
      let net_debt := company_data.total_debt
      let equity_value_adjusted := equity_value - net_debt
      if company_data.shares_outstanding ≤ 0 then none
      else
        some
          { ticker := company_data.ticker
            name := company_data.name
            sector := company_data.sector
            current_price := company_data.current_price
            intrinsic_value := roundTo 2 (equity_value_adjusted / company_data.shares_outstanding)
            wacc := roundTo 4 wacc
            fcf_growth_rate := roundTo 4 growth_rate
            base_fcf := roundTo 0 base_fcf
            shares_outstanding := company_data.shares_outstanding }

/-- `build_valuation_row` from `valuation.py`: `none` when the current price
is non-positive, otherwise the formatted row with the rounded percentage
upside and the Buy/Hold/Sell signal. -/
noncomputable def build_valuation_row (valuation : ValuationResult) : Option ValuationRow :=
  if valuation.current_price ≤ 0 then none
  else
    let upside_pct := (valuation.intrinsic_value - valuation.current_price) /
      valuation.current_price
    let signal := generate_signal upside_pct
    some
      { ticker := valuation.ticker
        company := valuation.name
        sector := valuation.sector
        current_price := roundTo 2 valuation.current_price
        intrinsic_value := roundTo 2 valuation.intrinsic_value
        pct_upside := roundTo 1 (upside_pct * 100)
        signal := signal
        wacc_pct := roundTo 2 (valuation.wacc * 100)
        growth_pct := roundTo 2 (valuation.fcf_growth_rate * 100) }

/-! ### Concrete input records used as witnesses and counterexamples -/

/-- A well-formed company record with a single-element (nonzero) FCF history. -/
noncomputable def singleFcfRecord : CompanyData :=
  { ticker := "TEST"
    name := "Test Corp"
    sector := "Technology"
    current_price := 150
    shares_outstanding := 1000000000
    historical_fcf := [5000000000]
    beta := 1.2
    market_cap := 150000000000
    total_debt := 20000000000
    interest_expense := 1000000000
    tax_rate := 0.21 }

/-- The same record with an empty FCF history. -/
noncomputable def emptyFcfRecord : CompanyData :=
  { singleFcfRecord with historical_fcf := ([] : List ℝ) }

/-- The same record with an all-negative FCF history (as in the repository's
own test for the distressed case). -/
noncomputable def negativeFcfRecord : CompanyData :=
  { singleFcfRecord with historical_fcf := [-1000000000, -800000000, -500000000] }

/-- A concrete valuation result used to witness the row-building claim. -/
noncomputable def sampleValuation : ValuationResult :=
  { ticker := "TEST"
    name := "Test Corp"
    sector := "Technology"
    current_price := 100
    intrinsic_value := 120
    wacc := 0.09
    fcf_growth_rate := 0.05
    base_fcf := 5000000000
    shares_outstanding := 1000000000 }

end DCF

namespace DCF

/-! ### Helper lemmas -/

theorem clamp_mem (v low high : ℝ) (h : low ≤ high) :
    low ≤ clamp v low high ∧ clamp v low high ≤ high :=
  ⟨le_max_left _ _, max_le h (min_le_left _ _)⟩

theorem projectAux_eq (b g L : ℝ) (years : ℕ) :
    ∀ (k t : ℕ) (cur : ℝ), cur = compSeq b g L years t →
      projectAux g L years cur (t + 1) k =
        (List.range k).map (fun i => compSeq b g L years (t + 1 + i)) := by
  intro k
  induction k with
  | zero => intro t cur _; rfl
  | succ k ih =>
    intro t cur hcur
    rw [List.range_succ_eq_map, List.map_cons, List.map_map]
    show (cur * (1 + fadeGrowth g L years (t + 1))) ::
        projectAux g L years
          (cur * (1 + fadeGrowth g L years (t + 1))) (t + 1 + 1) k = _
    have hstep : cur * (1 + fadeGrowth g L years (t + 1)) =
        compSeq b g L years (t + 1) := by
      rw [hcur]; rfl
    rw [hstep, ih (t + 1) _ rfl]
    refine congrArg₂ List.cons rfl ?_
    apply List.map_congr_left
    intro i _
    show compSeq b g L years (t + 1 + 1 + i) = compSeq b g L years (t + 1 + Nat.succ i)
    congr 1
    omega

theorem project_eq_map (b g L : ℝ) (years : ℕ) :
    project_free_cash_flows b g years L =
      (List.range years).map (fun i => compSeq b g L years (i + 1)) := by
  have h2 : project_free_cash_flows b g years L =
      (List.range years).map (fun i => compSeq b g L years (0 + 1 + i)) :=
    projectAux_eq b g L years years 0 b rfl
  rw [h2]
  apply List.map_congr_left
  intro i _
  congr 1
  omega

theorem pvAux_anti (w1 w2 : ℝ) (hw1 : 0 ≤ w1) (hw : w1 < w2) :
    ∀ (cfs : List ℝ) (t : ℕ), (∀ cf ∈ cfs, 0 < cf) →
      pvAux w2 t cfs ≤ pvAux w1 t cfs := by
  intro cfs
  induction cfs with
  | nil => intro t _; exact le_refl 0
  | cons cf rest ih =>
    intro t hpos
    have hcf : 0 < cf := hpos cf (List.mem_cons_self cf rest)
    have hrest : ∀ x ∈ rest, 0 < x := fun x hx => hpos x (List.mem_cons_of_mem cf hx)
    show cf / (1 + w2) ^ t + pvAux w2 (t + 1) rest ≤
      cf / (1 + w1) ^ t + pvAux w1 (t + 1) rest
    have hhead : cf / (1 + w2) ^ t ≤ cf / (1 + w1) ^ t := by
      gcongr
    exact add_le_add hhead (ih (t + 1) hrest)

theorem pvAux_le_sum (w : ℝ) (hw : 0 < w) :
    ∀ (cfs : List ℝ) (t : ℕ), 1 ≤ t → (∀ cf ∈ cfs, 0 < cf) →
      pvAux w t cfs ≤ cfs.sum := by
  intro cfs
  induction cfs with
  | nil => intro t _ _; exact le_refl 0
  | cons cf rest ih =>
    intro t ht hpos
    have hcf : 0 < cf := hpos cf (List.mem_cons_self cf rest)
    have hrest : ∀ x ∈ rest, 0 < x := fun x hx => hpos x (List.mem_cons_of_mem cf hx)
    show cf / (1 + w) ^ t + pvAux w (t + 1) rest ≤ cf + rest.sum
    have hpow : (1:ℝ) ≤ (1 + w) ^ t := by
      calc (1:ℝ) = 1 ^ t := (one_pow t).symm
      _ ≤ (1 + w) ^ t := by
        apply pow_le_pow_left₀ (by norm_num) (by linarith)
    exact add_le_add (div_le_self (le_of_lt hcf) hpow) (ih (t + 1) (by omega) hrest)

theorem getLastD_mem {α : Type} (l : List α) (d : α) (hne : l ≠ []) :
    l.getLastD d ∈ l := by
  induction l with
  | nil => exact absurd rfl hne
  | cons a rest ih =>
    cases rest with
    | nil => simp
    | cons b t =>
      have hstep : (a :: b :: t).getLastD d = (b :: t).getLastD d := rfl
      rw [hstep]
      exact List.mem_cons_of_mem a (ih (List.cons_ne_nil b t))

theorem headD_mem {α : Type} (l : List α) (d : α) (hne : l ≠ []) :
    l.headD d ∈ l := by
  cases l with
  | nil => exact absurd rfl hne
  | cons a rest => simp

theorem yoyRates_eq_nil (ps : List (ℝ × ℝ)) (h : ∀ p ∈ ps, ¬0 < p.1) :
    yoyRates ps = [] := by
  induction ps with
  | nil => rfl
  | cons p rest ih =>
    obtain ⟨prev, curr⟩ := p
    have hp : ¬(0 < prev ∧ 0 < curr) := fun hc =>
      h (prev, curr) (List.mem_cons_self _ _) hc.1
    show (if 0 < prev ∧ 0 < curr then (curr / prev - 1) :: yoyRates rest
      else yoyRates rest) = []
    rw [if_neg hp]
    exact ih fun p hp => h p (List.mem_cons_of_mem _ hp)

theorem growth_rate_short (l : List ℝ) (h : l.length < 2) :
    calculate_historical_growth_rate l = 0.05 := by
  unfold calculate_historical_growth_rate
  rw [if_pos h]

theorem growth_rate_all_neg (l : List ℝ) (h2 : 2 ≤ l.length)
    (hneg : ∀ x ∈ l, x < 0) :
    calculate_historical_growth_rate l = 0.03 := by
  unfold calculate_historical_growth_rate
  dsimp only
  rw [if_neg (by omega)]
  have hsub : ∀ x ∈ l.drop (l.length - 5), x < 0 := fun x hx =>
    hneg x (List.drop_subset _ l hx)
  have hwlen : (l.drop (l.length - 5)).length = l.length - (l.length - 5) :=
    List.length_drop _ l
  have hwne : l.drop (l.length - 5) ≠ [] := by
    intro hnil
    rw [hnil] at hwlen
    simp at hwlen
    omega
  have hfirst : (l.drop (l.length - 5)).headD 0 < 0 :=
    hsub _ (headD_mem _ 0 hwne)
  rw [if_neg (fun hc => absurd hc.1 (not_lt.mpr (le_of_lt hfirst)))]
  have hzip : ∀ p ∈ (l.drop (l.length - 5)).dropLast.zip (l.drop (l.length - 5)).tail,
      ¬0 < p.1 := by
    intro p hp
    have h1 : p.1 ∈ (l.drop (l.length - 5)).dropLast := (List.of_mem_zip hp).1
    have h2 : p.1 ∈ l.drop (l.length - 5) := List.dropLast_subset _ h1
    exact not_lt.mpr (le_of_lt (hsub _ h2))
  rw [yoyRates_eq_nil _ hzip]
  rw [if_neg (fun h => h rfl)]

theorem roundTo_four_of_005 : roundTo 4 (0.05 : ℝ) = 0.05 := by
  unfold roundTo
  rw [show ((0.05:ℝ) * 10 ^ 4) = 500 by norm_num]
  rw [show ((500:ℝ)) = ((500:ℤ):ℝ) by norm_num, round_intCast]
  norm_num

theorem intrinsic_value_none_iff (d : CompanyData) :
    calculate_intrinsic_value d = none ↔
      (d.historical_fcf = [] ∨ d.historical_fcf.getLastD 0 = 0 ∨
        d.shares_outstanding ≤ 0) := by
  unfold calculate_intrinsic_value
  dsimp only
  by_cases h1 : d.historical_fcf = []
  · rw [if_pos h1]
    simp [h1]
  · rw [if_neg h1]
    rw [List.getLastD_eq_getLast? 0 d.historical_fcf]
    by_cases h2 : d.historical_fcf.getLast?.getD 0 = 0
    · rw [if_pos h2]
      simp [h1, h2, List.getLastD_eq_getLast?]
    · rw [if_neg h2]
      by_cases h3 : d.shares_outstanding ≤ 0
      · rw [if_pos h3]
        simp [h1, h2, h3, List.getLastD_eq_getLast?]
      · rw [if_neg h3]
        simp [h1, h2, h3, List.getLastD_eq_getLast?]

/-! ### Theorems for claims C3, C5, C6 and C8 -/

/-- C3: with the default macro parameters, whenever
`market_cap + total_debt > 0` the WACC lies in [0.04, 0.25]; and whenever
`market_cap + total_debt ≤ 0` and `beta > 0`, the returned cost of equity is
non-negative. -/
theorem claim3_wacc_bounds (beta market_cap total_debt interest_expense tax_rate : ℝ) :
    (0 < market_cap + total_debt →
      0.04 ≤ calculate_wacc beta market_cap total_debt interest_expense tax_rate
          RISK_FREE_RATE EQUITY_RISK_PREMIUM ∧
      calculate_wacc beta market_cap total_debt interest_expense tax_rate
          RISK_FREE_RATE EQUITY_RISK_PREMIUM ≤ 0.25) ∧
    (market_cap + total_debt ≤ 0 → 0 < beta →
      0 ≤ calculate_wacc beta market_cap total_debt interest_expense tax_rate
          RISK_FREE_RATE EQUITY_RISK_PREMIUM) := by
  unfold calculate_wacc
  dsimp only
  by_cases htc : market_cap + total_debt ≤ 0
  · rw [if_pos htc]
    constructor
    · intro h
      exact absurd h (not_lt.mpr htc)
    · intro _ hbeta
      have hprod : 0 < beta * EQUITY_RISK_PREMIUM := by
        apply mul_pos hbeta
        rw [EQUITY_RISK_PREMIUM]; norm_num
      rw [RISK_FREE_RATE]
      linarith
  · rw [if_neg htc]
    constructor
    · intro _
      exact clamp_mem _ _ _ (by norm_num)
    · intro h
      exact absurd h htc

/-- Witness for C3: a normal capital structure and the zero-capital edge
case, both at concrete inputs. -/
theorem claim3_wacc_bounds_witness :
    ((0:ℝ) < 150 + 20 ∧
      0.04 ≤ calculate_wacc 1.2 150 20 1 0.21 RISK_FREE_RATE EQUITY_RISK_PREMIUM ∧
      calculate_wacc 1.2 150 20 1 0.21 RISK_FREE_RATE EQUITY_RISK_PREMIUM ≤ 0.25) ∧
    ((0:ℝ) + 0 ≤ 0 ∧ (0:ℝ) < 1 ∧
      0 ≤ calculate_wacc 1 0 0 0 0.21 RISK_FREE_RATE EQUITY_RISK_PREMIUM) :=
  ⟨⟨by norm_num, (claim3_wacc_bounds 1.2 150 20 1 0.21).1 (by norm_num)⟩,
   ⟨by norm_num, by norm_num,
    (claim3_wacc_bounds 1 0 0 0 0.21).2 (by norm_num) (by norm_num)⟩⟩

/-- C6: `project_free_cash_flows` with `years ≥ 1` returns exactly `years`
values; the list equals the compounding sequence in which value 0 is
`base_fcf` and value `t` is value `t-1` times `1 + g_t`, with `g_t` the
linearly faded growth rate; with the default `years = 7` it returns exactly
7 values. -/
theorem claim6_projection (base_fcf g L : ℝ) (years : ℕ) (hy : 1 ≤ years) :
    (project_free_cash_flows base_fcf g years L).length = years ∧
    project_free_cash_flows base_fcf g years L =
      (List.range years).map (fun i => compSeq base_fcf g L years (i + 1)) ∧
    (project_free_cash_flows base_fcf g PROJECTION_YEARS L).length = 7 := by
  refine ⟨?_, project_eq_map base_fcf g L years, ?_⟩
  · rw [project_eq_map, List.length_map, List.length_range]
  · rw [project_eq_map, List.length_map, List.length_range, PROJECTION_YEARS]

/-- Witness for C6 at base_fcf = 1, g = 0.1, years = 7, L = 0.025. -/
theorem claim6_projection_witness :
    1 ≤ 7 ∧
    ((project_free_cash_flows 1 0.1 7 0.025).length = 7 ∧
     project_free_cash_flows 1 0.1 7 0.025 =
       (List.range 7).map (fun i => compSeq 1 0.1 0.025 7 (i + 1)) ∧
     (project_free_cash_flows 1 0.1 PROJECTION_YEARS 0.025).length = 7) :=
  ⟨by norm_num, claim6_projection 1 0.1 0.025 7 (by norm_num)⟩

theorem terminal_value_eq (terminal_fcf wacc g m : ℝ) :
    calculate_terminal_value terminal_fcf wacc g m =
      (terminal_fcf * (1 + g) / max (wacc - g) 0.001 + terminal_fcf * m) / 2 := by
  unfold calculate_terminal_value
  dsimp only
  by_cases h : wacc - g ≤ 0.001
  · rw [if_pos h, max_eq_right h]
  · rw [if_neg h, max_eq_left (le_of_not_le h)]

/-- C5: for every terminal_fcf, wacc, long-term growth rate and exit multiple,
`calculate_terminal_value` returns
`(terminal_fcf*(1+g)/max(wacc-g, 0.001) + terminal_fcf*m)/2`; in particular at
terminal_fcf = 1,000,000, wacc = 0.09 and the defaults (g = 0.025, m = 20.0)
the result is exactly 232500000/13, which is within 0.01 of 17,884,615.38. -/
theorem claim5_terminal_value :
    (∀ terminal_fcf wacc g m : ℝ,
      calculate_terminal_value terminal_fcf wacc g m =
        (terminal_fcf * (1 + g) / max (wacc - g) 0.001 + terminal_fcf * m) / 2) ∧
    calculate_terminal_value 1000000 0.09 LONG_TERM_GROWTH_RATE FCF_EXIT_MULTIPLE
      = 232500000 / 13 ∧
    |calculate_terminal_value 1000000 0.09 LONG_TERM_GROWTH_RATE FCF_EXIT_MULTIPLE
      - 17884615.38| < 0.01 := by
  have hval : calculate_terminal_value 1000000 0.09 LONG_TERM_GROWTH_RATE FCF_EXIT_MULTIPLE
      = 232500000 / 13 := by
    rw [terminal_value_eq]
    rw [LONG_TERM_GROWTH_RATE, FCF_EXIT_MULTIPLE]
    rw [show max ((0.09:ℝ) - 0.025) 0.001 = 0.065 by
      rw [max_eq_left] <;> norm_num]
    norm_num
  refine ⟨terminal_value_eq, hval, ?_⟩
  rw [hval]
  rw [abs_of_pos (by norm_num)]
  norm_num

/-- C7: for a non-empty list of strictly positive cash flows and a positive
terminal value, `discount_cash_flows` is strictly decreasing in the discount
rate on [0, ∞), and for every positive rate its value is strictly below the
undiscounted sum of the cash flows plus the terminal value. -/
theorem claim7_discount_monotone (cash_flows : List ℝ) (terminal_value : ℝ)
    (hne : cash_flows ≠ []) (hpos : ∀ cf ∈ cash_flows, 0 < cf)
    (htv : 0 < terminal_value) :
    (∀ w1 w2 : ℝ, 0 ≤ w1 → w1 < w2 →
       discount_cash_flows cash_flows terminal_value w2 <
       discount_cash_flows cash_flows terminal_value w1) ∧
    (∀ w : ℝ, 0 < w →
       discount_cash_flows cash_flows terminal_value w <
       cash_flows.sum + terminal_value) := by
  have hn : cash_flows.length ≠ 0 := by
    intro h
    exact hne (List.length_eq_zero.mp h)
  constructor
  · intro w1 w2 hw1 hw
    unfold discount_cash_flows
    have hterm : terminal_value / (1 + w2) ^ cash_flows.length <
        terminal_value / (1 + w1) ^ cash_flows.length := by
      apply div_lt_div_of_pos_left htv
      · exact pow_pos (by linarith) _
      · exact pow_lt_pow_left₀ (by linarith) (by linarith) hn
    exact add_lt_add_of_le_of_lt (pvAux_anti w1 w2 hw1 hw cash_flows 1 hpos) hterm
  · intro w hw
    unfold discount_cash_flows
    have hterm : terminal_value / (1 + w) ^ cash_flows.length < terminal_value := by
      apply div_lt_self htv
      exact one_lt_pow₀ (by linarith) hn
    exact add_lt_add_of_le_of_lt (pvAux_le_sum w hw cash_flows 1 le_rfl hpos) hterm

/-- Witness for C7 at cash_flows = [1], terminal_value = 1. -/
theorem claim7_discount_monotone_witness :
    (([1] : List ℝ) ≠ [] ∧ (∀ cf ∈ ([1] : List ℝ), 0 < cf) ∧ (0:ℝ) < 1) ∧
    ((∀ w1 w2 : ℝ, 0 ≤ w1 → w1 < w2 →
       discount_cash_flows [1] 1 w2 < discount_cash_flows [1] 1 w1) ∧
     (∀ w : ℝ, 0 < w →
       discount_cash_flows [1] 1 w < ([1] : List ℝ).sum + 1)) :=
  ⟨⟨by simp, by simp, by norm_num⟩,
   claim7_discount_monotone [1] 1 (by simp) (by simp) (by norm_num)⟩

/-- C8: `generate_signal` returns "Buy" iff the upside is ≥ 0.15, "Sell" iff
it is ≤ -0.15, and "Hold" otherwise; the thresholds are inclusive. -/
theorem claim8_generate_signal (u : ℝ) :
    (generate_signal u = "Buy" ↔ 0.15 ≤ u) ∧
    (generate_signal u = "Sell" ↔ u ≤ -0.15) ∧
    (generate_signal u = "Hold" ↔ -0.15 < u ∧ u < 0.15) ∧
    generate_signal 0.15 = "Buy" ∧ generate_signal (-0.15) = "Sell" := by
  have hsig : ∀ v : ℝ, generate_signal v =
      if (0.15:ℝ) ≤ v then "Buy" else if v ≤ (-0.15:ℝ) then "Sell" else "Hold" := by
    intro v
    simp only [generate_signal, BUY_THRESHOLD, SELL_THRESHOLD]
  have hb : generate_signal (0.15:ℝ) = "Buy" := by
    rw [hsig, if_pos le_rfl]
  have hs : generate_signal (-0.15:ℝ) = "Sell" := by
    rw [hsig, if_neg (by norm_num), if_pos le_rfl]
  refine ⟨?_, ?_, ?_, hb, hs⟩ <;> rw [hsig] <;>
    by_cases h1 : (0.15:ℝ) ≤ u
  · simp [h1]
  · rw [if_neg h1]
    by_cases h2 : u ≤ (-0.15:ℝ)
    · rw [if_pos h2]
      constructor
      · intro h; exact absurd h (by decide)
      · intro h; exact absurd h h1
    · rw [if_neg h2]
      constructor
      · intro h; exact absurd h (by decide)
      · intro h; exact absurd h h1
  · rw [if_pos h1]
    constructor
    · intro h; exact absurd h (by decide)
    · intro h; exact absurd h (by linarith)
  · rw [if_neg h1]
    by_cases h2 : u ≤ (-0.15:ℝ)
    · simp [h2]
    · rw [if_neg h2]
      constructor
      · intro h; exact absurd h (by decide)
      · intro h; exact absurd h h2
  · rw [if_pos h1]
    constructor
    · intro h; exact absurd h (by decide)
    · rintro ⟨-, h⟩; exact absurd h1 (not_le.mpr h)
  · rw [if_neg h1]
    by_cases h2 : u ≤ (-0.15:ℝ)
    · rw [if_pos h2]
      constructor
      · intro h; exact absurd h (by decide)
      · rintro ⟨h, -⟩; exact absurd h2 (not_le.mpr h)
    · rw [if_neg h2]
      simp [not_le.mp h1, not_le.mp h2]

/-- C2 counterexample: on the six-element series [1, 2, 2, 2, 2, 2] (length
≥ 2, first and last of the whole series strictly positive) the code's growth
rate is NOT the clamped whole-series CAGR `(last/first)^(1/(len-1)) - 1`:
the code restricts to the last five values, so it returns 0 while the
whole-series formula gives a strictly positive value. -/
theorem claim2_counterexample :
    2 ≤ ([1, 2, 2, 2, 2, 2] : List ℝ).length ∧
    0 < ([1, 2, 2, 2, 2, 2] : List ℝ).headD 0 ∧
    0 < ([1, 2, 2, 2, 2, 2] : List ℝ).getLastD 0 ∧
    calculate_historical_growth_rate [1, 2, 2, 2, 2, 2] ≠
      specGrowthWholeSeries [1, 2, 2, 2, 2, 2] := by
  have hcode : calculate_historical_growth_rate [(1:ℝ), 2, 2, 2, 2, 2] = 0 := by
    unfold calculate_historical_growth_rate
    dsimp only
    rw [if_neg (by norm_num)]
    have hwin : ([(1:ℝ), 2, 2, 2, 2, 2].drop ([(1:ℝ), 2, 2, 2, 2, 2].length - 5)) =
        [2, 2, 2, 2, 2] := rfl
    rw [hwin]
    have hh : ([(2:ℝ), 2, 2, 2, 2] : List ℝ).headD 0 = 2 := rfl
    have hg : ([(2:ℝ), 2, 2, 2, 2] : List ℝ).getLastD 0 = 2 := rfl
    have hlen : ([(2:ℝ), 2, 2, 2, 2] : List ℝ).length = 5 := rfl
    rw [hh, hg, hlen]
    rw [if_pos ⟨by norm_num, by norm_num, by norm_num⟩]
    rw [show ((2:ℝ) / 2) = 1 by norm_num, Real.one_rpow]
    unfold clamp MIN_INITIAL_GROWTH MAX_INITIAL_GROWTH
    rw [show ((1:ℝ) - 1) = 0 by norm_num]
    rw [min_eq_right (by norm_num), max_eq_right (by norm_num)]
  have hspec : 0 < specGrowthWholeSeries [(1:ℝ), 2, 2, 2, 2, 2] := by
    unfold specGrowthWholeSeries
    have hg : ([(1:ℝ), 2, 2, 2, 2, 2] : List ℝ).getLastD 0 = 2 := rfl
    have hh : ([(1:ℝ), 2, 2, 2, 2, 2] : List ℝ).headD 0 = 1 := rfl
    have hlen : ([(1:ℝ), 2, 2, 2, 2, 2] : List ℝ).length = 6 := rfl
    rw [hg, hh, hlen]
    have hpow : (1:ℝ) < ((2:ℝ) / 1) ^ ((1:ℝ) / ((6 - 1 : ℕ) : ℝ)) := by
      rw [show ((2:ℝ) / 1) = 2 by norm_num]
      rw [Real.one_lt_rpow_iff_of_pos (by norm_num : (0:ℝ) < 2)]
      left
      constructor <;> norm_num
    unfold clamp MIN_INITIAL_GROWTH MAX_INITIAL_GROWTH
    have hmin : 0 < min (0.30:ℝ) (((2:ℝ) / 1) ^ ((1:ℝ) / ((6 - 1 : ℕ) : ℝ)) - 1) :=
      lt_min (by norm_num) (by linarith)
    exact lt_of_lt_of_le hmin (le_max_right _ _)
  refine ⟨by norm_num, by norm_num, ?_, ?_⟩
  · rw [show (([1, 2, 2, 2, 2, 2] : List ℝ).getLastD 0) = 2 from rfl]
    norm_num
  · intro heq
    rw [hcode] at heq
    have := hspec
    rw [← heq] at this
    exact lt_irrefl 0 this

/-- C2 (amended): for every historical FCF series of length ≥ 2 whose
last-five-value window has strictly positive first and last elements,
`calculate_historical_growth_rate` returns `(last/first)^(1/n) - 1` clamped
to [-0.20, 0.30], where first and last are the first and last elements of the
window `historical_fcf[-5:]` and `n` is the window length minus 1. -/
theorem claim2_growth_cagr_window (l : List ℝ) (h2 : 2 ≤ l.length)
    (hf : 0 < (l.drop (l.length - 5)).headD 0)
    (hl : 0 < (l.drop (l.length - 5)).getLastD 0) :
    calculate_historical_growth_rate l =
      clamp (((l.drop (l.length - 5)).getLastD 0 / (l.drop (l.length - 5)).headD 0) ^
          ((1:ℝ) / (((l.drop (l.length - 5)).length - 1 : ℕ) : ℝ)) - 1)
        MIN_INITIAL_GROWTH MAX_INITIAL_GROWTH := by
  unfold calculate_historical_growth_rate
  dsimp only
  rw [if_neg (by omega)]
  have hn : 0 < (l.drop (l.length - 5)).length - 1 := by
    rw [List.length_drop]
    omega
  rw [if_pos ⟨hf, hl, hn⟩]

/-- Witness for C2 (amended) at the series [1, 2]. -/
theorem claim2_growth_cagr_window_witness :
    2 ≤ ([1, 2] : List ℝ).length ∧
    0 < (([1, 2] : List ℝ).drop (([1, 2] : List ℝ).length - 5)).headD 0 ∧
    0 < (([1, 2] : List ℝ).drop (([1, 2] : List ℝ).length - 5)).getLastD 0 ∧
    calculate_historical_growth_rate [1, 2] =
      clamp (((([1, 2] : List ℝ).drop (([1, 2] : List ℝ).length - 5)).getLastD 0 /
            (([1, 2] : List ℝ).drop (([1, 2] : List ℝ).length - 5)).headD 0) ^
          ((1:ℝ) / (((([1, 2] : List ℝ).drop (([1, 2] : List ℝ).length - 5)).length - 1 : ℕ) : ℝ)) - 1)
        MIN_INITIAL_GROWTH MAX_INITIAL_GROWTH :=
  ⟨by norm_num,
   by rw [show ((([1, 2] : List ℝ).drop (([1, 2] : List ℝ).length - 5)).headD 0) = 1 from rfl]; norm_num,
   by rw [show ((([1, 2] : List ℝ).drop (([1, 2] : List ℝ).length - 5)).getLastD 0) = 2 from rfl]; norm_num,
   claim2_growth_cagr_window [1, 2] (by norm_num)
     (by rw [show ((([1, 2] : List ℝ).drop (([1, 2] : List ℝ).length - 5)).headD 0) = 1 from rfl]; norm_num)
     (by rw [show ((([1, 2] : List ℝ).drop (([1, 2] : List ℝ).length - 5)).getLastD 0) = 2 from rfl]; norm_num)⟩

/-- C4: `calculate_intrinsic_value` returns `none` exactly when the FCF
history is empty, or its last element is zero, or shares outstanding are
non-positive; on every other record it returns a `ValuationResult`. -/
theorem claim4_failure_conditions (d : CompanyData) :
    calculate_intrinsic_value d = none ↔
      (d.historical_fcf = [] ∨ d.historical_fcf.getLastD 0 = 0 ∨
        d.shares_outstanding ≤ 0) :=
  intrinsic_value_none_iff d

/-- C1 counterexample: a well-formed record whose FCF history has a single
nonzero element (so fewer than 2 elements) on which
`calculate_intrinsic_value` does NOT fail. -/
theorem claim1_counterexample :
    singleFcfRecord.historical_fcf.length < 2 ∧
    singleFcfRecord.historical_fcf.getLastD 0 ≠ 0 ∧
    0 < singleFcfRecord.shares_outstanding ∧
    calculate_intrinsic_value singleFcfRecord ≠ none := by
  refine ⟨by norm_num [singleFcfRecord], ?_, ?_, ?_⟩
  · rw [show (singleFcfRecord.historical_fcf.getLastD 0) = 5000000000 from rfl]
    norm_num
  · rw [show singleFcfRecord.shares_outstanding = 1000000000 from rfl]
    norm_num
  · rw [Ne, intrinsic_value_none_iff]
    push_neg
    refine ⟨by simp [singleFcfRecord], ?_, ?_⟩
    · rw [show (singleFcfRecord.historical_fcf.getLastD 0) = 5000000000 from rfl]
      norm_num
    · rw [show singleFcfRecord.shares_outstanding = 1000000000 from rfl]
      norm_num

/-- C1 (amended): an empty FCF history always makes
`calculate_intrinsic_value` fail, but a single-element history with a nonzero
value and positive shares outstanding does NOT fail — the <2-point case is
handled by the growth default, so only emptiness (or a zero base FCF or
non-positive share count) forces "no result". -/
theorem claim1_amended :
    (∀ d : CompanyData, d.historical_fcf = [] → calculate_intrinsic_value d = none) ∧
    (∀ (d : CompanyData) (x : ℝ), d.historical_fcf = [x] → x ≠ 0 →
      0 < d.shares_outstanding → calculate_intrinsic_value d ≠ none) := by
  constructor
  · intro d hd
    rw [intrinsic_value_none_iff]
    exact Or.inl hd
  · intro d x hd hx hs
    rw [Ne, intrinsic_value_none_iff]
    push_neg
    refine ⟨by simp [hd], ?_, hs⟩
    rw [hd]
    rw [show (([x] : List ℝ).getLastD 0) = x from rfl]
    exact hx

/-- C9: on a record whose FCF history is non-empty and all-negative, with
positive shares outstanding and well-formed remaining fields,
`calculate_intrinsic_value` returns a numeric result (never absent), and the
reported growth rate is `max(estimate, 0.05) = 0.05` (the estimator returns
0.03 for an all-negative multi-point history, 0.05 below two points). -/
theorem claim9_all_negative_history (d : CompanyData)
    (hne : d.historical_fcf ≠ []) (hneg : ∀ x ∈ d.historical_fcf, x < 0)
    (hs : 0 < d.shares_outstanding) (hb : 0 < d.beta)
    (ht0 : 0 ≤ d.tax_rate) (ht1 : d.tax_rate ≤ 1)
    (hmc : 0 ≤ d.market_cap) (htd : 0 ≤ d.total_debt)
    (hie : 0 ≤ d.interest_expense) :
    ∃ r : ValuationResult, calculate_intrinsic_value d = some r ∧
      r.fcf_growth_rate = 0.05 := by
  have hbase_neg : d.historical_fcf.getLastD 0 < 0 :=
    hneg _ (getLastD_mem d.historical_fcf 0 hne)
  have hg0 : calculate_historical_growth_rate d.historical_fcf ≤ 0.05 := by
    by_cases hlen : d.historical_fcf.length < 2
    · rw [growth_rate_short _ hlen]
    · rw [growth_rate_all_neg _ (by omega) hneg]
      norm_num
  unfold calculate_intrinsic_value
  dsimp only
  rw [if_neg hne, if_neg (ne_of_lt hbase_neg), if_pos hbase_neg,
    max_eq_right hg0, if_neg (not_le.mpr hs)]
  exact ⟨_, rfl, roundTo_four_of_005⟩

/-- Witness for C9 at the all-negative three-point record from the
repository's own test suite. -/
theorem claim9_all_negative_history_witness :
    (negativeFcfRecord.historical_fcf ≠ [] ∧
     (∀ x ∈ negativeFcfRecord.historical_fcf, x < 0) ∧
     0 < negativeFcfRecord.shares_outstanding ∧
     0 < negativeFcfRecord.beta ∧
     0 ≤ negativeFcfRecord.tax_rate ∧ negativeFcfRecord.tax_rate ≤ 1 ∧
     0 ≤ negativeFcfRecord.market_cap ∧ 0 ≤ negativeFcfRecord.total_debt ∧
     0 ≤ negativeFcfRecord.interest_expense) ∧
    (∃ r : ValuationResult, calculate_intrinsic_value negativeFcfRecord = some r ∧
      r.fcf_growth_rate = 0.05) :=
  ⟨⟨by simp [negativeFcfRecord, singleFcfRecord],
    by norm_num [negativeFcfRecord, singleFcfRecord, List.forall_mem_cons],
    by rw [show negativeFcfRecord.shares_outstanding = 1000000000 from rfl]; norm_num,
    by rw [show negativeFcfRecord.beta = 1.2 from rfl]; norm_num,
    by rw [show negativeFcfRecord.tax_rate = 0.21 from rfl]; norm_num,
    by rw [show negativeFcfRecord.tax_rate = 0.21 from rfl]; norm_num,
    by rw [show negativeFcfRecord.market_cap = 150000000000 from rfl]; norm_num,
    by rw [show negativeFcfRecord.total_debt = 20000000000 from rfl]; norm_num,
    by rw [show negativeFcfRecord.interest_expense = 1000000000 from rfl]; norm_num⟩,
   claim9_all_negative_history negativeFcfRecord
    (by simp [negativeFcfRecord, singleFcfRecord])
    (by norm_num [negativeFcfRecord, singleFcfRecord, List.forall_mem_cons])
    (by rw [show negativeFcfRecord.shares_outstanding = 1000000000 from rfl]; norm_num)
    (by rw [show negativeFcfRecord.beta = 1.2 from rfl]; norm_num)
    (by rw [show negativeFcfRecord.tax_rate = 0.21 from rfl]; norm_num)
    (by rw [show negativeFcfRecord.tax_rate = 0.21 from rfl]; norm_num)
    (by rw [show negativeFcfRecord.market_cap = 150000000000 from rfl]; norm_num)
    (by rw [show negativeFcfRecord.total_debt = 20000000000 from rfl]; norm_num)
    (by rw [show negativeFcfRecord.interest_expense = 1000000000 from rfl]; norm_num)⟩

/-- C10: `build_valuation_row` returns no row exactly when the current price
is non-positive; otherwise the produced row carries the percentage form of
the upside `(intrinsic_value - current_price) / current_price` and the signal
`generate_signal` of that upside.  Moreover `calculate_intrinsic_value` never
fails because of the price: changing `current_price` never changes whether it
returns a result. -/
theorem claim10_row_classification (v : ValuationResult) :
    (build_valuation_row v = none ↔ v.current_price ≤ 0) ∧
    (0 < v.current_price →
      ∃ row : ValuationRow, build_valuation_row v = some row ∧
        row.pct_upside =
          roundTo 1 (((v.intrinsic_value - v.current_price) / v.current_price) * 100) ∧
        row.signal =
          generate_signal ((v.intrinsic_value - v.current_price) / v.current_price)) ∧
    (∀ (d : CompanyData) (p : ℝ),
      calculate_intrinsic_value { d with current_price := p } = none ↔
        calculate_intrinsic_value d = none) := by
  refine ⟨?_, ?_, ?_⟩
  · unfold build_valuation_row
    by_cases h : v.current_price ≤ 0
    · rw [if_pos h]
      simp [h]
    · rw [if_neg h]
      simp [h]
  · intro hp
    unfold build_valuation_row
    rw [if_neg (not_le.mpr hp)]
    exact ⟨_, rfl, rfl, rfl⟩
  · intro d p
    rw [intrinsic_value_none_iff, intrinsic_value_none_iff]

/-- Witness for C10 at a concrete valuation with positive price. -/
theorem claim10_row_classification_witness :
    (0:ℝ) < sampleValuation.current_price ∧
    (∃ row : ValuationRow, build_valuation_row sampleValuation = some row ∧
       row.pct_upside = roundTo 1
         (((sampleValuation.intrinsic_value - sampleValuation.current_price) /
            sampleValuation.current_price) * 100) ∧
       row.signal = generate_signal
         ((sampleValuation.intrinsic_value - sampleValuation.current_price) /
            sampleValuation.current_price)) :=
  ⟨by rw [show sampleValuation.current_price = 100 from rfl]; norm_num,
   (claim10_row_classification sampleValuation).2.1
     (by rw [show sampleValuation.current_price = 100 from rfl]; norm_num)⟩

/-- Witness for C1 (amended): the empty record fails, the single-element
record succeeds. -/
theorem claim1_amended_witness :
    (emptyFcfRecord.historical_fcf = [] ∧
      calculate_intrinsic_value emptyFcfRecord = none) ∧
    (singleFcfRecord.historical_fcf = [(5000000000:ℝ)] ∧ (5000000000:ℝ) ≠ 0 ∧
      0 < singleFcfRecord.shares_outstanding ∧
      calculate_intrinsic_value singleFcfRecord ≠ none) :=
  ⟨⟨rfl, claim1_amended.1 emptyFcfRecord rfl⟩,
   ⟨rfl, by norm_num,
    by rw [show singleFcfRecord.shares_outstanding = 1000000000 from rfl]; norm_num,
    claim1_amended.2 singleFcfRecord 5000000000 rfl (by norm_num)
      (by rw [show singleFcfRecord.shares_outstanding = 1000000000 from rfl]; norm_num)⟩⟩

end DCF
